import Mathlib

/-!
# Verification of the PerformanceTesting arbitrage monitors

Shallow embedding of the two arbitrage-detection scripts of the repository:

* `Speedtest/arbitrage_speed_monitor.py` (class `ArbitrageSpeedMonitor`), embedded in
  namespace `Speedtest`;
* `free_arbitrage_monitor.py` (class `FreeArbitrageMonitor`), embedded in namespace
  `FreeMonitor`.

Python floats are modelled as exact rationals (`ℚ`); the one claim that is about binary
floating point itself (numeric parsing) gets its own model of IEEE-754 binary64 rounding
(`Speedtest.toBinary64`).  Python dicts are modelled as insertion-ordered association
lists, matching the guaranteed iteration order of `dict` that the scripts rely on.
-/

namespace Feed

/-- Classification of one incoming websocket message, as the feed loops distinguish them:
a well-formed book-ticker message carrying a bid and an ask, a message that parses but is
not a data message (subscription ack, heartbeat, wrong shape), or a message on which
parsing/field access raises an exception. -/
inductive WireMsg where
  | ticker (bid ask : ℚ)
  | other
  | malformed
  deriving DecidableEq

/-- Effect of handling one message inside a feed's receive loop: store a new price
(and run detection), keep the connection and wait for the next message, or leave the
receive loop so that the connection is torn down and re-established. -/
inductive FeedStep where
  | update (bid ask : ℚ)
  | keep
  | disconnect
  deriving DecidableEq

end Feed

namespace Speedtest

/-- One entry of `ArbitrageSpeedMonitor.prices`: the dict
`{'bid': bid, 'ask': ask, 'time': timestamp}` built in `update_price`. -/
structure Quote where
  bid : ℚ
  ask : ℚ
  time : ℚ
  deriving DecidableEq

/-- One opportunity dict as built in `ArbitrageSpeedMonitor.check_arbitrage`
(lines 86-93 and 96-103 of `arbitrage_speed_monitor.py`). -/
structure Opp where
  buy_exchange : String
  sell_exchange : String
  buy_price : ℚ
  sell_price : ℚ
  profit_usd : ℚ
  profit_pct : ℚ
  deriving DecidableEq

/-- Insertion-ordered association-list update, the behaviour of `d[k] = v` on a Python
dict: an existing key keeps its position, a new key is appended at the end. -/
def setKey {β : Type} : List (String × β) → String → β → List (String × β)
  | [], e, v => [(e, v)]
  | (e', v') :: rest, e, v =>
      if e' = e then (e, v) :: rest else (e', v') :: setKey rest e v

/-- Association-list lookup, the behaviour of `d[k]` / `d.get(k)` on a Python dict. -/
def lookupKey {β : Type} : List (String × β) → String → Option β
  | [], _ => none
  | (e', v') :: rest, e => if e' = e then some v' else lookupKey rest e

/-- State of one `ArbitrageSpeedMonitor` instance (the fields mutated by
`update_price`; `start_time` is only used for printing and omitted). -/
structure MonitorState where
  prices : List (String × Quote)
  message_counts : List (String × ℕ)
  last_update : List (String × ℚ)
  deriving DecidableEq

/-- `ArbitrageSpeedMonitor.update_price` (lines 45-55): unconditionally stores
`{'bid': bid, 'ask': ask, 'time': timestamp}` under `exchange`, increments the message
count and records `last_update`.  The Python default `timestamp=None` is resolved to
`time.perf_counter()` by the caller; here the timestamp is always passed explicitly.
The trailing `self.check_arbitrage()` call only prints and does not change any of these
fields, so the state transformer ends here. -/
def update_price (s : MonitorState) (exchange : String) (bid ask : ℚ)
    (timestamp : ℚ) : MonitorState :=
  { prices := setKey s.prices exchange ⟨bid, ask, timestamp⟩
    message_counts :=
      setKey s.message_counts exchange ((lookupKey s.message_counts exchange).getD 0 + 1)
    last_update := setKey s.last_update exchange timestamp }

/-- Body of the inner pair loop of `ArbitrageSpeedMonitor.check_arbitrage`
(lines 67-103): skip the pair if either quote is older than 5 seconds, otherwise
append the buy-on-`ex1` direction when its percentage profit exceeds 0.01 (percent),
then the buy-on-`ex2` direction under the same test. -/
def oppsForPair (ex1 ex2 : String) (price1 price2 : Quote) (current_time : ℚ) :
    List Opp :=
  if current_time - price1.time > 5 ∨ current_time - price2.time > 5 then []
  else
    let profit1 := price2.bid - price1.ask
    let profit1_pct := profit1 / price1.ask * 100
    let profit2 := price1.bid - price2.ask
    let profit2_pct := profit2 / price2.ask * 100
    (if profit1_pct > 1/100 then
        [⟨ex1, ex2, price1.ask, price2.bid, profit1, profit1_pct⟩] else []) ++
    (if profit2_pct > 1/100 then
        [⟨ex2, ex1, price2.ask, price1.bid, profit2, profit2_pct⟩] else [])

/-- The double loop `for i, ex1 in enumerate(exchanges): for ex2 in exchanges[i+1:]`
(lines 65-66), collecting the opportunities in generation order. -/
def allPairOpps : List (String × Quote) → ℚ → List Opp
  | [], _ => []
  | (e1, q1) :: rest, current_time =>
      (rest.map fun p => oppsForPair e1 p.1 q1 p.2 current_time).flatten
        ++ allPairOpps rest current_time

/-- Python's `max(xs, key=key)` on a list: scan left to right, replace the current
best only on a strictly greater key, so the first element attaining the maximum wins.
`none` on the empty list (where Python would raise). -/
def pyMax (key : Opp → ℚ) : List Opp → Option Opp
  | [] => none
  | x :: xs => some (xs.foldl (fun best y => if key y > key best then y else best) x)

/-- `ArbitrageSpeedMonitor.check_arbitrage` (lines 57-110): returns the list of
qualifying opportunities together with the single displayed best one (the `max` by
`profit_pct` of line 107), `([], none)` when fewer than two exchanges have data or no
direction qualifies. -/
def check_arbitrage (prices : List (String × Quote)) (current_time : ℚ) :
    List Opp × Option Opp :=
  if prices.length < 2 then ([], none)
  else
    let opportunities := allPairOpps prices current_time
    (opportunities, pyMax (fun o => o.profit_pct) opportunities)

/-- Delay before retrying after the `n`-th consecutive connection failure of
`binance_feed` (lines 155-157): the handler is `await asyncio.sleep(1)` on every
failure, so the delay is the constant 1 second, independent of the attempt index. -/
def reconnectDelay (_ : ℕ) : ℚ := 1

/-- Handling of one received message inside `binance_feed`'s `async for` loop
(lines 145-153): a parsed message with fields `b` and `a` updates the price; a parsed
message without them falls through; any exception is caught by `except Exception:
continue`, so the message is dropped and the loop keeps the connection. -/
def binance_feed_step : Feed.WireMsg → Feed.FeedStep
  | .ticker b a => .update b a
  | .other => .keep
  | .malformed => .keep

/-- Round half up to the nearest integer, `⌊q + 1/2⌋`. -/
def rnd (q : ℚ) : ℤ := ⌊q + 1/2⌋

/-- Fuel-driven binary search for `⌊log₂ q⌋` of a positive rational: halve while
`q ≥ 2`, double while `q < 1`.  1100 steps of fuel cover every magnitude that fits in
a binary64 exponent. -/
def ilog2Aux : ℕ → ℚ → ℤ
  | 0, _ => 0
  | fuel + 1, q =>
      if 2 ≤ q then ilog2Aux fuel (q / 2) + 1
      else if q < 1 then ilog2Aux fuel (2 * q) - 1
      else 0

/-- `⌊log₂ q⌋` for positive `q`. -/
def ilog2 (q : ℚ) : ℤ := ilog2Aux 1100 q

/-- Model of CPython's `float(s)` applied to a decimal string whose exact value is the
positive rational `q`, as done for the wire fields in `binance_feed` line 149-150
(`bid = float(data['b'])`): the result is `q` rounded to 53 significant binary digits
(IEEE-754 binary64, normal range).  IEEE rounds ties to even while `rnd` rounds ties
up; the inputs considered here are never ties, where the two rules agree. -/
def toBinary64 (q : ℚ) : ℚ :=
  if q ≤ 0 then 0
  else
    let e := ilog2 q
    let ulp : ℚ := 2 ^ (e - 52)
    rnd (q / ulp) * ulp

/-- The numeric parse performed by the feed handlers on each wire price field:
`float(data['b'])`, i.e. correctly rounded conversion to binary64. -/
def parsePrice (q : ℚ) : ℚ := toBinary64 q

end Speedtest

namespace FreeMonitor

/-- One entry of `FreeArbitrageMonitor.prices`:
`{'bid': .., 'ask': .., 'time': .., 'latency': ..}`. -/
structure FQuote where
  bid : ℚ
  ask : ℚ
  time : ℚ
  latency : ℚ
  deriving DecidableEq

/-- The three fixed keys of `FreeArbitrageMonitor.prices`, in dict insertion order. -/
inductive Exch where
  | binance
  | coinbase
  | bybit
  deriving DecidableEq

/-- One opportunity dict as built in `FreeArbitrageMonitor.check_arbitrage`
(lines 213-223; the formatted time string and the two latency copies are derived
display data and omitted). -/
structure FOpp where
  buy_exchange : Exch
  sell_exchange : Exch
  buy_price : ℚ
  sell_price : ℚ
  profit_usd : ℚ
  profit_percent : ℚ
  deriving DecidableEq

/-- State of one `FreeArbitrageMonitor` instance: the three price entries, the
bounded opportunity history (`deque(maxlen=100)`), and the unbounded counter. -/
structure MonState where
  binance : FQuote
  coinbase : FQuote
  bybit : FQuote
  arbitrage_opportunities : List FOpp
  total_opportunities : ℕ
  deriving DecidableEq

/-- Lookup `self.prices[e]`. -/
def MonState.q (s : MonState) : Exch → FQuote
  | .binance => s.binance
  | .coinbase => s.coinbase
  | .bybit => s.bybit

/-- `self.prices[e] = quote`. -/
def setQ (s : MonState) (e : Exch) (quote : FQuote) : MonState :=
  match e with
  | .binance => { s with binance := quote }
  | .coinbase => { s with coinbase := quote }
  | .bybit => { s with bybit := quote }

/-- The state built by `FreeArbitrageMonitor.__init__` (lines 33-40): all three
entries zeroed, empty history, zero counter. -/
def initState : MonState :=
  ⟨⟨0, 0, 0, 0⟩, ⟨0, 0, 0, 0⟩, ⟨0, 0, 0, 0⟩, [], 0⟩

/-- Iteration order of `self.prices.items()`: the dict is created with these three
keys and never gains or loses one. -/
def exchangeOrder : List Exch := [.binance, .coinbase, .bybit]

/-- The `active_exchanges` list of `check_arbitrage` (lines 188-191): exchanges whose
entry has been written (`time > 0`) and is younger than one second (strict `< 1.0`). -/
def activeExchanges (s : MonState) (now : ℚ) : List Exch :=
  exchangeOrder.filter fun e =>
    if 0 < (s.q e).time ∧ now - (s.q e).time < 1 then true else false

/-- Python's `max` over a nonempty list of floats (0 on the empty list, where Python
would raise; `check_arbitrage` only applies it after the length check). -/
def maxListQ : List ℚ → ℚ
  | [] => 0
  | x :: xs => xs.foldl max x

/-- Python's `min` over a nonempty list of floats (0 on the empty list). -/
def minListQ : List ℚ → ℚ
  | [] => 0
  | x :: xs => xs.foldl min x

/-- `best_bid = max([self.prices[ex]['bid'] for ex in active_exchanges])` (line 197). -/
def bestBid (s : MonState) (now : ℚ) : ℚ :=
  maxListQ ((activeExchanges s now).map fun e => (s.q e).bid)

/-- `best_ask = min([self.prices[ex]['ask'] for ex in active_exchanges])` (line 198). -/
def bestAsk (s : MonState) (now : ℚ) : ℚ :=
  minListQ ((activeExchanges s now).map fun e => (s.q e).ask)

/-- `bid_exchange = next(ex for ex in active_exchanges if ...bid == best_bid)`
(line 201): the first active exchange holding the maximum bid. -/
def bidExchange (s : MonState) (now : ℚ) : Option Exch :=
  (activeExchanges s now).find? fun e =>
    if (s.q e).bid = bestBid s now then true else false

/-- `ask_exchange = next(ex for ex in active_exchanges if ...ask == best_ask)`
(line 202): the first active exchange holding the minimum ask. -/
def askExchange (s : MonState) (now : ℚ) : Option Exch :=
  (activeExchanges s now).find? fun e =>
    if (s.q e).ask = bestAsk s now then true else false

/-- The detection part of `FreeArbitrageMonitor.check_arbitrage` (lines 184-223):
the opportunity recorded by one pass, if any.  `none` when fewer than two exchanges
are active, when the globally best bid does not exceed the globally best ask, when
both extremes sit on the same exchange, or when the percentage profit does not
exceed 0.01 (percent).  The wildcard match arm is unreachable: the maximum and the
minimum are attained on the nonempty active list, so both `next(...)` calls succeed. -/
def freeDetect (s : MonState) (now : ℚ) : Option FOpp :=
  let active := activeExchanges s now
  if active.length < 2 then none
  else
    let best_bid := bestBid s now
    let best_ask := bestAsk s now
    match bidExchange s now, askExchange s now with
    | some bid_exchange, some ask_exchange =>
        if best_bid > best_ask ∧ bid_exchange ≠ ask_exchange then
          let profit_usd := best_bid - best_ask
          let profit_percent := profit_usd / best_ask * 100
          if profit_percent > 1/100 then
            some ⟨ask_exchange, bid_exchange, best_ask, best_bid, profit_usd,
                  profit_percent⟩
          else none
        else none
    | _, _ => none

/-- `deque(maxlen=100).append`: append on the right, evicting the leftmost element
when the deque already holds 100 entries. -/
def dequeAppend (xs : List FOpp) (x : FOpp) : List FOpp :=
  if xs.length < 100 then xs ++ [x] else xs.tail ++ [x]

/-- `FreeArbitrageMonitor.check_arbitrage` as a state transformer: when a qualifying
opportunity is found, `self.total_opportunities += 1` (line 211) and
`self.arbitrage_opportunities.append(opportunity)` (line 225); otherwise the state is
untouched (the remaining statements only print). -/
def check_arbitrage (s : MonState) (now : ℚ) : MonState :=
  match freeDetect s now with
  | none => s
  | some o =>
      { s with
        total_opportunities := s.total_opportunities + 1
        arbitrage_opportunities := dequeAppend s.arbitrage_opportunities o }

/-- One accepted wire update inside a `monitor_*` loop: store the fresh quote under
its exchange (lines 64-69), then run `self.check_arbitrage(...)` (line 71). -/
def applyUpdate (s : MonState) (e : Exch) (quote : FQuote) (now : ℚ) : MonState :=
  check_arbitrage (setQ s e quote) now

/-- A whole run of the monitor: fold `applyUpdate` over a sequence of accepted
updates, each tagged with the clock value at which it is processed. -/
def run : MonState → List (Exch × FQuote × ℚ) → MonState
  | s, [] => s
  | s, (e, quote, t) :: rest => run (applyUpdate s e quote t) rest

/-- Delay before retrying after the `n`-th consecutive connection failure of
`monitor_binance` (lines 78-80): the handler is `await asyncio.sleep(1)` on every
failure, a constant 1 second. -/
def reconnectDelay (_ : ℕ) : ℚ := 1

/-- Handling of one received message inside `monitor_binance`'s receive loop
(lines 56-76): a parsed message with fields `b` and `a` updates the price; a parsed
message without them falls through and the loop continues; any other exception —
including a JSON parse failure on a malformed message — hits `except Exception: ...
break` (lines 74-76), leaving the receive loop so the connection is torn down and
re-established.  (`asyncio.TimeoutError` is caught separately and continues.) -/
def monitor_binance_step : Feed.WireMsg → Feed.FeedStep
  | .ticker b a => .update b a
  | .other => .keep
  | .malformed => .disconnect

/-- Delay between leaving the receive loop via the message-local `break` (line 76)
and the next connection attempt: the `async with` block then exits normally, no
exception reaches the outer `except`, and the outer `while True` (line 44) retries
the connection at once — `await asyncio.sleep(1)` (line 80) runs only after a failed
connection attempt, never after a message-local `break`. -/
def delayAfterMessageBreak : ℚ := 0

end FreeMonitor

/-! ## Helper lemmas -/

lemma lookup_setKey {β : Type} : ∀ (l : List (String × β)) (e : String) (v : β),
    Speedtest.lookupKey (Speedtest.setKey l e v) e = some v := by
  intro l e v
  induction l with
  | nil => simp [Speedtest.setKey, Speedtest.lookupKey]
  | cons p rest ih =>
    obtain ⟨e', v'⟩ := p
    by_cases h : e' = e
    · simp [Speedtest.setKey, Speedtest.lookupKey, h]
    · simp [Speedtest.setKey, Speedtest.lookupKey, h, ih]

lemma ilog2Aux_up (fuel : ℕ) (q : ℚ) (h : q < 1) :
    Speedtest.ilog2Aux (fuel + 1) q = Speedtest.ilog2Aux fuel (2 * q) - 1 := by
  have h2 : ¬ (2:ℚ) ≤ q := by linarith
  simp [Speedtest.ilog2Aux, h, h2]

lemma ilog2Aux_base (fuel : ℕ) (q : ℚ) (h1 : 1 ≤ q) (h2 : q < 2) :
    Speedtest.ilog2Aux fuel q = 0 := by
  cases fuel with
  | zero => simp [Speedtest.ilog2Aux]
  | succ f =>
    have ha : ¬ (2:ℚ) ≤ q := by linarith
    have hb : ¬ q < 1 := by linarith
    simp [Speedtest.ilog2Aux, ha, hb]

lemma ilog2_tenth : Speedtest.ilog2 (1/10) = -4 := by
  have key : ∀ fuel : ℕ, Speedtest.ilog2Aux (fuel + 4) (1/10 : ℚ) = -4 := by
    intro fuel
    rw [show fuel + 4 = (fuel + 3) + 1 from rfl, ilog2Aux_up _ _ (by norm_num)]
    rw [show fuel + 3 = (fuel + 2) + 1 from rfl, ilog2Aux_up _ _ (by norm_num)]
    rw [show fuel + 2 = (fuel + 1) + 1 from rfl, ilog2Aux_up _ _ (by norm_num)]
    rw [ilog2Aux_up _ _ (by norm_num)]
    rw [ilog2Aux_base _ _ (by norm_num) (by norm_num)]
    norm_num
  have h := key 1096
  norm_num at h
  simp only [Speedtest.ilog2]
  exact h

/-! ## Claim theorems -/

/-- C1: two fresh stored quotes A(bid=100.00, ask=100.10) and B(bid=100.30,
ask=100.40) make one detection pass produce exactly one opportunity — buy on A at
100.10, sell on B at 100.30, absolute profit 0.20, percentage profit 200/1001 ≈
0.1998% — and none in the reverse direction; the same direction and numbers come out
of the free monitor's detection. -/
theorem c1_profit_correctness :
    (∀ tA tB now : ℚ, now - tA ≤ 5 → now - tB ≤ 5 →
      Speedtest.check_arbitrage
          [("A", ⟨100, 1001/10, tA⟩), ("B", ⟨1003/10, 1004/10, tB⟩)] now
        = ([⟨"A", "B", 1001/10, 1003/10, 1/5, 200/1001⟩],
           some ⟨"A", "B", 1001/10, 1003/10, 1/5, 200/1001⟩))
    ∧ (∀ tA tB now : ℚ, 0 < tA → now - tA < 1 → 0 < tB → now - tB < 1 →
      FreeMonitor.freeDetect
          ⟨⟨100, 1001/10, tA, 0⟩, ⟨1003/10, 1004/10, tB, 0⟩, ⟨0, 0, 0, 0⟩, [], 0⟩ now
        = some ⟨.binance, .coinbase, 1001/10, 1003/10, 1/5, 200/1001⟩)
    ∧ |(200 : ℚ)/1001 - 1998/10000| < 1/10000 := by
  refine ⟨?_, ?_, by rw [abs_sub_lt_iff]; norm_num⟩
  · intro tA tB now hA hB
    have hfresh : ¬(now - tA > 5 ∨ now - tB > 5) := by push_neg; exact ⟨hA, hB⟩
    norm_num [Speedtest.check_arbitrage, Speedtest.allPairOpps, Speedtest.oppsForPair,
      Speedtest.pyMax, hfresh]
  · intro tA tB now htA hnA htB hnB
    have h1 : 0 < tA ∧ now - tA < 1 := ⟨htA, hnA⟩
    have h2 : 0 < tB ∧ now - tB < 1 := ⟨htB, hnB⟩
    have hne : FreeMonitor.Exch.coinbase ≠ FreeMonitor.Exch.binance := by decide
    norm_num [hne, FreeMonitor.freeDetect, FreeMonitor.activeExchanges,
      FreeMonitor.exchangeOrder, FreeMonitor.bestBid, FreeMonitor.bestAsk,
      FreeMonitor.bidExchange, FreeMonitor.askExchange, FreeMonitor.maxListQ,
      FreeMonitor.minListQ, FreeMonitor.MonState.q, List.filter, List.find?,
      h1, h2, max_def, min_def]

/-- C1 witness: the theorem applied at concrete clock values. -/
theorem c1_profit_correctness_witness :
    Speedtest.check_arbitrage
        [("A", ⟨100, 1001/10, 0⟩), ("B", ⟨1003/10, 1004/10, 0⟩)] 0
      = ([⟨"A", "B", 1001/10, 1003/10, 1/5, 200/1001⟩],
         some ⟨"A", "B", 1001/10, 1003/10, 1/5, 200/1001⟩)
    ∧ FreeMonitor.freeDetect
        ⟨⟨100, 1001/10, 1, 0⟩, ⟨1003/10, 1004/10, 1, 0⟩, ⟨0, 0, 0, 0⟩, [], 0⟩ 1
      = some ⟨.binance, .coinbase, 1001/10, 1003/10, 1/5, 200/1001⟩ :=
  ⟨c1_profit_correctness.1 0 0 0 (by norm_num) (by norm_num),
   c1_profit_correctness.2.1 1 1 1 (by norm_num) (by norm_num) (by norm_num)
     (by norm_num)⟩

/-- C2 counterexample: with A(bid=1, ask=10000) and B(bid=10001, ask=20000), both
fresh, the buy-A-sell-B direction has percentage profit exactly 1/100 = the 0.01%
threshold, yet `check_arbitrage` produces no opportunity at all: the code's test is
the strict `profit_pct > 0.01`, so a direction exactly at the threshold is excluded,
contradicting the claim. -/
theorem c2_counterexample :
    ((10001 : ℚ) - 10000) / 10000 * 100 = 1/100
    ∧ Speedtest.check_arbitrage [("A", ⟨1, 10000, 0⟩), ("B", ⟨10001, 20000, 0⟩)] 0
      = ([], none) := by
  constructor
  · norm_num
  · norm_num [Speedtest.check_arbitrage, Speedtest.allPairOpps, Speedtest.oppsForPair,
      Speedtest.pyMax]

/-- C2 (amended): in both monitors a candidate direction is included as an
opportunity exactly when its percentage profit is strictly greater than the 0.01%
threshold.  For the Speedtest detector on a fresh two-exchange store, the direction
is a member of the pass's opportunity list iff its percentage profit exceeds 1/100.
For the free monitor, once the non-threshold guards hold (at least two active
exchanges, the best bid above the best ask, the two extremes on distinct exchanges),
the pass records the candidate iff its percentage profit exceeds 1/100: the result
is the candidate exactly when the strict comparison holds and nothing otherwise —
in particular the concrete boundary store whose candidate sits exactly at 1/100
records nothing. -/
theorem c2_threshold_strict :
    (∀ (e1 e2 : String) (q1 q2 : Speedtest.Quote) (now : ℚ),
      e1 ≠ e2 → now - q1.time ≤ 5 → now - q2.time ≤ 5 →
      ((⟨e1, e2, q1.ask, q2.bid, q2.bid - q1.ask,
          (q2.bid - q1.ask) / q1.ask * 100⟩ : Speedtest.Opp)
          ∈ (Speedtest.check_arbitrage [(e1, q1), (e2, q2)] now).1
        ↔ (q2.bid - q1.ask) / q1.ask * 100 > 1/100))
    ∧ (∀ (s : FreeMonitor.MonState) (now : ℚ) (bidex askex : FreeMonitor.Exch),
        ¬ (FreeMonitor.activeExchanges s now).length < 2 →
        FreeMonitor.bidExchange s now = some bidex →
        FreeMonitor.askExchange s now = some askex →
        FreeMonitor.bestBid s now > FreeMonitor.bestAsk s now →
        bidex ≠ askex →
        FreeMonitor.freeDetect s now
          = if (FreeMonitor.bestBid s now - FreeMonitor.bestAsk s now)
                / FreeMonitor.bestAsk s now * 100 > 1/100
            then some ⟨askex, bidex, FreeMonitor.bestAsk s now,
                FreeMonitor.bestBid s now,
                FreeMonitor.bestBid s now - FreeMonitor.bestAsk s now,
                (FreeMonitor.bestBid s now - FreeMonitor.bestAsk s now)
                  / FreeMonitor.bestAsk s now * 100⟩
            else none)
    ∧ ((10001 : ℚ) - 10000) / 10000 * 100 = 1/100
    ∧ FreeMonitor.freeDetect
        ⟨⟨1, 10000, 1, 0⟩, ⟨10001, 20000, 1, 0⟩, ⟨0, 0, 0, 0⟩, [], 0⟩ 1 = none := by
  refine ⟨?_, ?_, by norm_num, ?_⟩
  · intro e1 e2 q1 q2 now hne hA hB
    have hfresh : ¬(now - q1.time > 5 ∨ now - q2.time > 5) := by
      push_neg; exact ⟨hA, hB⟩
    by_cases hc1 : (q2.bid - q1.ask) / q1.ask * 100 > 1/100 <;>
      by_cases hc2 : (q1.bid - q2.ask) / q2.ask * 100 > 1/100 <;>
        simp [Speedtest.check_arbitrage, Speedtest.allPairOpps, Speedtest.oppsForPair,
          hfresh, hc1, hc2, Speedtest.Opp.mk.injEq, hne]
  · intro s now bidex askex hlen hbe hae hgt hne
    simp only [FreeMonitor.freeDetect]
    rw [if_neg hlen, hbe, hae]
    dsimp only
    rw [if_pos ⟨hgt, hne⟩]
  · have hne : FreeMonitor.Exch.coinbase ≠ FreeMonitor.Exch.binance := by decide
    norm_num [hne, FreeMonitor.freeDetect, FreeMonitor.activeExchanges,
      FreeMonitor.exchangeOrder, FreeMonitor.bestBid, FreeMonitor.bestAsk,
      FreeMonitor.bidExchange, FreeMonitor.askExchange, FreeMonitor.maxListQ,
      FreeMonitor.minListQ, FreeMonitor.MonState.q, List.filter, List.find?,
      max_def, min_def]

/-- C2 witness: both parts of the amended threshold characterization applied at
concrete stores carrying a direction strictly above the threshold. -/
theorem c2_threshold_strict_witness :
    ((⟨"A", "B", 100, 101, (101 : ℚ) - 100, ((101 : ℚ) - 100) / 100 * 100⟩ :
        Speedtest.Opp)
        ∈ (Speedtest.check_arbitrage
            [("A", ⟨99, 100, 0⟩), ("B", ⟨101, 200, 0⟩)] 0).1
      ↔ ((101 : ℚ) - 100) / 100 * 100 > 1/100)
    ∧ FreeMonitor.freeDetect
        ⟨⟨100, 1001/10, 1, 0⟩, ⟨1003/10, 1004/10, 1, 0⟩, ⟨0, 0, 0, 0⟩, [], 0⟩ 1
      = if (FreeMonitor.bestBid
              ⟨⟨100, 1001/10, 1, 0⟩, ⟨1003/10, 1004/10, 1, 0⟩, ⟨0, 0, 0, 0⟩, [], 0⟩ 1
            - FreeMonitor.bestAsk
              ⟨⟨100, 1001/10, 1, 0⟩, ⟨1003/10, 1004/10, 1, 0⟩, ⟨0, 0, 0, 0⟩, [], 0⟩ 1)
            / FreeMonitor.bestAsk
              ⟨⟨100, 1001/10, 1, 0⟩, ⟨1003/10, 1004/10, 1, 0⟩, ⟨0, 0, 0, 0⟩, [], 0⟩ 1
            * 100 > 1/100
        then some ⟨.binance, .coinbase,
            FreeMonitor.bestAsk
              ⟨⟨100, 1001/10, 1, 0⟩, ⟨1003/10, 1004/10, 1, 0⟩, ⟨0, 0, 0, 0⟩, [], 0⟩ 1,
            FreeMonitor.bestBid
              ⟨⟨100, 1001/10, 1, 0⟩, ⟨1003/10, 1004/10, 1, 0⟩, ⟨0, 0, 0, 0⟩, [], 0⟩ 1,
            FreeMonitor.bestBid
              ⟨⟨100, 1001/10, 1, 0⟩, ⟨1003/10, 1004/10, 1, 0⟩, ⟨0, 0, 0, 0⟩, [], 0⟩ 1
            - FreeMonitor.bestAsk
              ⟨⟨100, 1001/10, 1, 0⟩, ⟨1003/10, 1004/10, 1, 0⟩, ⟨0, 0, 0, 0⟩, [], 0⟩ 1,
            (FreeMonitor.bestBid
              ⟨⟨100, 1001/10, 1, 0⟩, ⟨1003/10, 1004/10, 1, 0⟩, ⟨0, 0, 0, 0⟩, [], 0⟩ 1
            - FreeMonitor.bestAsk
              ⟨⟨100, 1001/10, 1, 0⟩, ⟨1003/10, 1004/10, 1, 0⟩, ⟨0, 0, 0, 0⟩, [], 0⟩ 1)
            / FreeMonitor.bestAsk
              ⟨⟨100, 1001/10, 1, 0⟩, ⟨1003/10, 1004/10, 1, 0⟩, ⟨0, 0, 0, 0⟩, [], 0⟩ 1
            * 100⟩
        else none :=
  ⟨c2_threshold_strict.1 "A" "B" ⟨99, 100, 0⟩ ⟨101, 200, 0⟩ 0 (by decide)
    (by norm_num) (by norm_num),
   c2_threshold_strict.2.1
    ⟨⟨100, 1001/10, 1, 0⟩, ⟨1003/10, 1004/10, 1, 0⟩, ⟨0, 0, 0, 0⟩, [], 0⟩ 1
    .coinbase .binance
    (by norm_num [FreeMonitor.activeExchanges, FreeMonitor.exchangeOrder,
      FreeMonitor.MonState.q, List.filter])
    (by norm_num [FreeMonitor.bidExchange, FreeMonitor.bestBid, FreeMonitor.maxListQ,
      FreeMonitor.activeExchanges, FreeMonitor.exchangeOrder, FreeMonitor.MonState.q,
      List.filter, List.find?, max_def])
    (by norm_num [FreeMonitor.askExchange, FreeMonitor.bestAsk, FreeMonitor.minListQ,
      FreeMonitor.activeExchanges, FreeMonitor.exchangeOrder, FreeMonitor.MonState.q,
      List.filter, List.find?, min_def])
    (by norm_num [FreeMonitor.bestBid, FreeMonitor.bestAsk, FreeMonitor.maxListQ,
      FreeMonitor.minListQ, FreeMonitor.activeExchanges, FreeMonitor.exchangeOrder,
      FreeMonitor.MonState.q, List.filter, max_def, min_def])
    (by decide)⟩

/-- C3 counterexample: the stored quote for exchange X has timestamp 10; an update
carrying the older timestamp 5 (≤ 10, i.e. out of order) nevertheless replaces the
stored quote: `update_price` performs no sequence or ordering check, contradicting
the claim that such an update leaves the stored quote unchanged. -/
theorem c3_counterexample :
    Speedtest.update_price ⟨[("X", ⟨1, 2, 10⟩)], [("X", 1)], [("X", 10)]⟩ "X" 3 4 5
      = ⟨[("X", ⟨3, 4, 5⟩)], [("X", 2)], [("X", 5)]⟩
    ∧ (⟨3, 4, 5⟩ : Speedtest.Quote) ≠ ⟨1, 2, 10⟩ ∧ (5 : ℚ) ≤ 10 := by
  refine ⟨?_, by simp [Speedtest.Quote.mk.injEq], by norm_num⟩
  norm_num [Speedtest.update_price, Speedtest.setKey, Speedtest.lookupKey]

/-- C3 (amended): `update_price` unconditionally overwrites the stored quote for the
updated exchange with the incoming bid, ask and timestamp — there is no sequence
field and no out-of-order or duplicate rejection of any kind. -/
theorem c3_unconditional_overwrite :
    ∀ (s : Speedtest.MonitorState) (e : String) (b a t : ℚ),
      Speedtest.lookupKey (Speedtest.update_price s e b a t).prices e
        = some ⟨b, a, t⟩ := by
  intro s e b a t
  simp [Speedtest.update_price, lookup_setKey]

/-- C4 counterexample: the reconnect delays after consecutive immediate connection
failures are all exactly 1 second in both monitors — the delay after the second
failure is not larger than after the first, so there is no exponential (or any)
growth toward a larger bounded maximum, contradicting the claimed backoff policy. -/
theorem c4_counterexample :
    Speedtest.reconnectDelay 0 = 1 ∧ Speedtest.reconnectDelay 1 = 1
    ∧ Speedtest.reconnectDelay 9 = 1
    ∧ FreeMonitor.reconnectDelay 0 = 1 ∧ FreeMonitor.reconnectDelay 9 = 1
    ∧ ¬ Speedtest.reconnectDelay 0 < Speedtest.reconnectDelay 1 := by
  norm_num [Speedtest.reconnectDelay, FreeMonitor.reconnectDelay]

/-- C4 (amended): every reconnect delay in both monitors is the constant 1 second;
the sequence of delays over consecutive failures is therefore trivially
non-decreasing and bounded (by 1 second), but it never grows, carries no jitter, and
there is no reset logic because there is nothing to reset. -/
theorem c4_constant_backoff :
    ∀ n : ℕ, Speedtest.reconnectDelay n = 1 ∧ FreeMonitor.reconnectDelay n = 1
      ∧ Speedtest.reconnectDelay n ≤ Speedtest.reconnectDelay (n + 1)
      ∧ FreeMonitor.reconnectDelay n ≤ FreeMonitor.reconnectDelay (n + 1)
      ∧ Speedtest.reconnectDelay n ≤ 1 := by
  intro n
  norm_num [Speedtest.reconnectDelay, FreeMonitor.reconnectDelay]

/-- C7 counterexample: in `FreeArbitrageMonitor.monitor_binance`, a malformed
message hits `except Exception: ... break`, which leaves the receive loop and tears
the connection down — the connection does not remain streaming, contradicting the
claim. -/
theorem c7_counterexample :
    FreeMonitor.monitor_binance_step Feed.WireMsg.malformed = Feed.FeedStep.disconnect
    ∧ Feed.FeedStep.disconnect ≠ Feed.FeedStep.keep := by
  simp [FreeMonitor.monitor_binance_step]

/-- C7 (amended): in the Speedtest monitor a malformed message is dropped by
`except Exception: continue` and the connection keeps streaming, while in the free
monitor a malformed message breaks the receive loop so the connection is torn down
and the outer loop immediately attempts a new connection with no delay — the
1-second sleep applies only to failed connection attempts, not to the message-local
`break`; well-formed ticker messages update the price in both. Neither monitor
counts the dropped messages. -/
theorem c7_malformed_handling :
    ∀ b a : ℚ,
      Speedtest.binance_feed_step (Feed.WireMsg.ticker b a) = Feed.FeedStep.update b a
      ∧ Speedtest.binance_feed_step Feed.WireMsg.malformed = Feed.FeedStep.keep
      ∧ Speedtest.binance_feed_step Feed.WireMsg.other = Feed.FeedStep.keep
      ∧ FreeMonitor.monitor_binance_step (Feed.WireMsg.ticker b a)
          = Feed.FeedStep.update b a
      ∧ FreeMonitor.monitor_binance_step Feed.WireMsg.malformed
          = Feed.FeedStep.disconnect
      ∧ FreeMonitor.delayAfterMessageBreak = 0
      ∧ FreeMonitor.reconnectDelay 0 = 1 := by
  intro b a
  norm_num [Speedtest.binance_feed_step, FreeMonitor.monitor_binance_step,
    FreeMonitor.delayAfterMessageBreak, FreeMonitor.reconnectDelay]

/-- C8 counterexample: the feed handlers parse each wire price with Python's
`float(...)`, i.e. binary64; the wire decimal 0.1 therefore parses to
7205759403792794/2⁵⁶, which is not the exact decimal value 1/10 — the parse does
go through binary floating-point rounding, contradicting the claim. -/
theorem c8_counterexample : Speedtest.parsePrice (1/10) ≠ 1/10 := by
  have hval : Speedtest.rnd ((1/10 : ℚ) / (2:ℚ) ^ ((-4 : ℤ) - 52)) = 7205759403792794 := by
    rw [Speedtest.rnd, Int.floor_eq_iff]
    norm_num [zpow_neg]
  simp only [Speedtest.parsePrice, Speedtest.toBinary64, ilog2_tenth]
  rw [if_neg (by norm_num), hval]
  norm_num [zpow_neg]

/-- C8 (amended): prices are parsed with binary64 floating point (`float()` on the
wire string), which rounds to 53 significant bits: the wire decimal 0.1 parses to
exactly 7205759403792794/2⁵⁶, a value different from 1/10, so profit computations do
incur float round-off. -/
theorem c8_float_parse :
    Speedtest.parsePrice (1/10) = 7205759403792794 / 2 ^ 56
    ∧ (7205759403792794 : ℚ) / 2 ^ 56 ≠ 1/10 := by
  have hval : Speedtest.rnd ((1/10 : ℚ) / (2:ℚ) ^ ((-4 : ℤ) - 52)) = 7205759403792794 := by
    rw [Speedtest.rnd, Int.floor_eq_iff]
    norm_num [zpow_neg]
  constructor
  · simp only [Speedtest.parsePrice, Speedtest.toBinary64, ilog2_tenth]
    rw [if_neg (by norm_num), hval]
    norm_num [zpow_neg]
  · norm_num

lemma mem_active {s : FreeMonitor.MonState} {now : ℚ} {e : FreeMonitor.Exch}
    (h : e ∈ FreeMonitor.activeExchanges s now) :
    0 < (s.q e).time ∧ now - (s.q e).time < 1 := by
  rw [FreeMonitor.activeExchanges, List.mem_filter] at h
  by_cases hP : 0 < (s.q e).time ∧ now - (s.q e).time < 1
  · exact hP
  · simp [hP] at h

lemma pyMax_foldl_first_max (key : Speedtest.Opp → ℚ) :
    ∀ (xs : List Speedtest.Opp) (acc : Speedtest.Opp),
      (xs.foldl (fun best y => if key y > key best then y else best) acc = acc
        ∧ ∀ y ∈ xs, key y ≤ key acc)
      ∨ (∃ l₁ l₂ r, xs = l₁ ++ r :: l₂
          ∧ xs.foldl (fun best y => if key y > key best then y else best) acc = r
          ∧ key acc < key r ∧ (∀ y ∈ l₁, key y < key r) ∧ (∀ y ∈ l₂, key y ≤ key r)) := by
  intro xs
  induction xs with
  | nil => intro acc; left; simp
  | cons x xs ih =>
    intro acc
    by_cases hx : key x > key acc
    · have hfold : (x :: xs).foldl (fun best y => if key y > key best then y else best) acc
          = xs.foldl (fun best y => if key y > key best then y else best) x := by
        simp [List.foldl_cons, if_pos hx]
      rcases ih x with ⟨heq, hall⟩ | ⟨l₁, l₂, r, hsplit, heq, hlt, hall₁, hall₂⟩
      · right
        exact ⟨[], xs, x, by simp, by rw [hfold, heq], hx, by simp, hall⟩
      · right
        refine ⟨x :: l₁, l₂, r, by simp [hsplit], by rw [hfold, heq],
          lt_trans hx hlt, ?_, hall₂⟩
        intro y hy
        rcases List.mem_cons.mp hy with rfl | hy'
        · exact hlt
        · exact hall₁ y hy'
    · have hfold : (x :: xs).foldl (fun best y => if key y > key best then y else best) acc
          = xs.foldl (fun best y => if key y > key best then y else best) acc := by
        simp [List.foldl_cons, if_neg hx]
      rcases ih acc with ⟨heq, hall⟩ | ⟨l₁, l₂, r, hsplit, heq, hlt, hall₁, hall₂⟩
      · left
        refine ⟨by rw [hfold, heq], ?_⟩
        intro y hy
        rcases List.mem_cons.mp hy with rfl | hy'
        · exact le_of_not_lt hx
        · exact hall y hy'
      · right
        refine ⟨x :: l₁, l₂, r, by simp [hsplit], by rw [hfold, heq], hlt, ?_, hall₂⟩
        intro y hy
        rcases List.mem_cons.mp hy with rfl | hy'
        · exact lt_of_le_of_lt (le_of_not_lt hx) hlt
        · exact hall₁ y hy'

lemma pyMax_first_max (key : Speedtest.Opp → ℚ) (l : List Speedtest.Opp)
    (o : Speedtest.Opp) (h : Speedtest.pyMax key l = some o) :
    ∃ l₁ l₂, l = l₁ ++ o :: l₂ ∧ (∀ y ∈ l₁, key y < key o) ∧ (∀ y ∈ l₂, key y ≤ key o) := by
  cases l with
  | nil => simp [Speedtest.pyMax] at h
  | cons x xs =>
    simp only [Speedtest.pyMax, Option.some.injEq] at h
    rcases pyMax_foldl_first_max key xs x with ⟨heq, hall⟩ | ⟨l₁, l₂, r, hsplit, heq, hlt, h₁, h₂⟩
    · rw [heq] at h
      subst h
      exact ⟨[], xs, rfl, by simp, hall⟩
    · rw [heq] at h
      subst h
      refine ⟨x :: l₁, l₂, by simp [hsplit], ?_, h₂⟩
      intro y hy
      rcases List.mem_cons.mp hy with rfl | hy'
      · exact hlt
      · exact h₁ y hy'

lemma pyMax_eq_none (key : Speedtest.Opp → ℚ) (l : List Speedtest.Opp) :
    Speedtest.pyMax key l = none ↔ l = [] := by
  cases l <;> simp [Speedtest.pyMax]

lemma setQ_opps (s : FreeMonitor.MonState) (e : FreeMonitor.Exch) (q : FreeMonitor.FQuote) :
    (FreeMonitor.setQ s e q).arbitrage_opportunities = s.arbitrage_opportunities
    ∧ (FreeMonitor.setQ s e q).total_opportunities = s.total_opportunities := by
  cases e <;> simp [FreeMonitor.setQ]

lemma dequeAppend_len {xs : List FreeMonitor.FOpp} {x : FreeMonitor.FOpp}
    (h : xs.length ≤ 100) : (FreeMonitor.dequeAppend xs x).length ≤ 100 := by
  rw [FreeMonitor.dequeAppend]
  split_ifs with h'
  · simp
    omega
  · simp [List.length_tail]
    omega

lemma check_arb_len {s : FreeMonitor.MonState} {now : ℚ}
    (h : s.arbitrage_opportunities.length ≤ 100) :
    (FreeMonitor.check_arbitrage s now).arbitrage_opportunities.length ≤ 100 := by
  cases hdet : FreeMonitor.freeDetect s now with
  | none => simpa [FreeMonitor.check_arbitrage, hdet] using h
  | some o =>
    simp only [FreeMonitor.check_arbitrage, hdet]
    exact dequeAppend_len h

lemma check_arb_total (s : FreeMonitor.MonState) (now : ℚ) :
    (FreeMonitor.check_arbitrage s now).total_opportunities
      = s.total_opportunities
        + (if FreeMonitor.freeDetect s now = none then 0 else 1) := by
  cases hdet : FreeMonitor.freeDetect s now with
  | none => simp [FreeMonitor.check_arbitrage, hdet]
  | some o => simp [FreeMonitor.check_arbitrage, hdet]

lemma run_len : ∀ (evs : List (FreeMonitor.Exch × FreeMonitor.FQuote × ℚ))
    (s : FreeMonitor.MonState), s.arbitrage_opportunities.length ≤ 100 →
    (FreeMonitor.run s evs).arbitrage_opportunities.length ≤ 100 := by
  intro evs
  induction evs with
  | nil => intro s h; exact h
  | cons ev rest ih =>
    intro s h
    obtain ⟨e, q, t⟩ := ev
    refine ih _ ?_
    refine check_arb_len ?_
    rw [(setQ_opps s e q).1]
    exact h

lemma run_append : ∀ (evs evs' : List (FreeMonitor.Exch × FreeMonitor.FQuote × ℚ))
    (s : FreeMonitor.MonState),
    FreeMonitor.run s (evs ++ evs') = FreeMonitor.run (FreeMonitor.run s evs) evs' := by
  intro evs
  induction evs with
  | nil => intro evs' s; rfl
  | cons ev rest ih =>
    intro evs' s
    obtain ⟨e, q, t⟩ := ev
    simp only [List.cons_append, FreeMonitor.run]
    exact ih evs' _

/-- C5 counterexample: in the free monitor the staleness window is 1 second but the
test is the strict `(now - time) < 1.0`; with a binance quote of age exactly 1 second
(which the claim's "at most the configured maximum age" calls fresh) and a fresh
coinbase quote forming a spread far above the threshold, `check_arbitrage` records
nothing — the state is returned unchanged — so "fresh exactly when age ≤ max" is
false of the code. -/
theorem c5_counterexample :
    (2 : ℚ) - (⟨⟨110, 120, 1, 0⟩, ⟨100, 100, 2, 0⟩, ⟨0, 0, 0, 0⟩, [], 0⟩ :
        FreeMonitor.MonState).binance.time = 1
    ∧ ((1 : ℚ) ≤ 1)
    ∧ ((110 : ℚ) - 100) / 100 * 100 > 1/100
    ∧ FreeMonitor.check_arbitrage
        ⟨⟨110, 120, 1, 0⟩, ⟨100, 100, 2, 0⟩, ⟨0, 0, 0, 0⟩, [], 0⟩ 2
      = ⟨⟨110, 120, 1, 0⟩, ⟨100, 100, 2, 0⟩, ⟨0, 0, 0, 0⟩, [], 0⟩ := by
  refine ⟨by norm_num, by norm_num, by norm_num, ?_⟩
  norm_num [FreeMonitor.check_arbitrage, FreeMonitor.freeDetect,
    FreeMonitor.activeExchanges, FreeMonitor.exchangeOrder, FreeMonitor.MonState.q,
    List.filter]

/-- C5 (amended): staleness gating holds — the Speedtest detector emits nothing for a
pair in which either quote is older than 5 seconds, and every opportunity recorded by
the free monitor references only exchanges passing its activity test — but the free
monitor's freshness predicate is strict: a quote participates only when its timestamp
is positive and its age is strictly less than 1 second (age exactly 1 is stale),
while the Speedtest monitor accepts ages up to and including 5 seconds. -/
theorem c5_freshness_gating :
    (∀ (e1 e2 : String) (q1 q2 : Speedtest.Quote) (now : ℚ),
        now - q1.time > 5 ∨ now - q2.time > 5 →
        Speedtest.oppsForPair e1 e2 q1 q2 now = [])
    ∧ (∀ (s : FreeMonitor.MonState) (now : ℚ) (o : FreeMonitor.FOpp),
        FreeMonitor.freeDetect s now = some o →
        (0 < (s.q o.buy_exchange).time ∧ now - (s.q o.buy_exchange).time < 1)
        ∧ (0 < (s.q o.sell_exchange).time ∧ now - (s.q o.sell_exchange).time < 1)) := by
  constructor
  · intro e1 e2 q1 q2 now h
    simp only [Speedtest.oppsForPair]
    rw [if_pos h]
  · intro s now o h
    simp only [FreeMonitor.freeDetect] at h
    by_cases hlen : (FreeMonitor.activeExchanges s now).length < 2
    · simp [hlen] at h
    · rw [if_neg hlen] at h
      cases hbe : FreeMonitor.bidExchange s now with
      | none => rw [hbe] at h; cases hae : FreeMonitor.askExchange s now <;>
          rw [hae] at h <;> simp at h
      | some bidex =>
        cases hae : FreeMonitor.askExchange s now with
        | none => rw [hbe, hae] at h; simp at h
        | some askex =>
          rw [hbe, hae] at h
          dsimp only at h
          have hmb : bidex ∈ FreeMonitor.activeExchanges s now := by
            unfold FreeMonitor.bidExchange at hbe
            exact List.mem_of_find?_eq_some hbe
          have hma : askex ∈ FreeMonitor.activeExchanges s now := by
            unfold FreeMonitor.askExchange at hae
            exact List.mem_of_find?_eq_some hae
          split_ifs at h with h1 h2
          · injection h with ho
            subst ho
            exact ⟨mem_active hma, mem_active hmb⟩

/-- C5 witness: the gating theorem applied to a concrete stale Speedtest pair and to
a concrete free-monitor detection. -/
theorem c5_freshness_gating_witness :
    Speedtest.oppsForPair "A" "B" ⟨1, 1, 0⟩ ⟨2, 1, 0⟩ 10 = []
    ∧ ((0 : ℚ) <
        ((⟨⟨100, 1001/10, 1, 0⟩, ⟨1003/10, 1004/10, 1, 0⟩, ⟨0, 0, 0, 0⟩, [], 0⟩ :
            FreeMonitor.MonState).q FreeMonitor.Exch.binance).time
      ∧ (1 : ℚ) -
        ((⟨⟨100, 1001/10, 1, 0⟩, ⟨1003/10, 1004/10, 1, 0⟩, ⟨0, 0, 0, 0⟩, [], 0⟩ :
            FreeMonitor.MonState).q FreeMonitor.Exch.binance).time < 1) :=
  ⟨c5_freshness_gating.1 "A" "B" ⟨1, 1, 0⟩ ⟨2, 1, 0⟩ 10 (by norm_num),
   (c5_freshness_gating.2
      ⟨⟨100, 1001/10, 1, 0⟩, ⟨1003/10, 1004/10, 1, 0⟩, ⟨0, 0, 0, 0⟩, [], 0⟩ 1
      ⟨.binance, .coinbase, 1001/10, 1003/10, 1/5, 200/1001⟩
      (by
        have hne : FreeMonitor.Exch.coinbase ≠ FreeMonitor.Exch.binance := by decide
        norm_num [hne, FreeMonitor.freeDetect, FreeMonitor.activeExchanges,
          FreeMonitor.exchangeOrder, FreeMonitor.bestBid, FreeMonitor.bestAsk,
          FreeMonitor.bidExchange, FreeMonitor.askExchange, FreeMonitor.maxListQ,
          FreeMonitor.minListQ, FreeMonitor.MonState.q, List.filter, List.find?,
          max_def, min_def])).1⟩

/-- C6 counterexample: with the store holding A(bid=1, ask=100), then C(bid=101,
ask=1000), then B(bid=101, ask=1000) in insertion order, the pass yields two
qualifying directions that tie on percentage profit (1%) and on absolute profit (1):
buy A sell C and buy A sell B.  The code's `max` keeps the first encountered and
displays (A, C), although (A, B) is the lexicographically smaller pair ("B" < "C"),
contradicting the claimed lexicographic tie-break. -/
theorem c6_counterexample :
    Speedtest.check_arbitrage
        [("A", ⟨1, 100, 0⟩), ("C", ⟨101, 1000, 0⟩), ("B", ⟨101, 1000, 0⟩)] 0
      = ([⟨"A", "C", 100, 101, 1, 1⟩, ⟨"A", "B", 100, 101, 1, 1⟩],
         some ⟨"A", "C", 100, 101, 1, 1⟩)
    ∧ ("B" : String) < "C" := by
  constructor
  · norm_num [Speedtest.check_arbitrage, Speedtest.allPairOpps, Speedtest.oppsForPair,
      Speedtest.pyMax]
  · rw [String.lt_iff_toList_lt]
    decide

/-- C6 (amended): each detection pass displays at most one opportunity — nothing
exactly when no direction qualifies — and the displayed one is the first, in the
pass's pair-generation order, among the directions of maximal percentage profit:
everything strictly earlier in the list has strictly smaller percentage profit and
everything later has no larger percentage profit.  Ties are broken by generation
order alone, not by absolute profit or by lexicographic exchange order. -/
theorem c6_first_of_maxima :
    ∀ (prices : List (String × Speedtest.Quote)) (now : ℚ),
      ((Speedtest.check_arbitrage prices now).2 = none
        ↔ (Speedtest.check_arbitrage prices now).1 = [])
      ∧ (∀ o, (Speedtest.check_arbitrage prices now).2 = some o →
          ∃ l₁ l₂, (Speedtest.check_arbitrage prices now).1 = l₁ ++ o :: l₂
            ∧ (∀ y ∈ l₁, y.profit_pct < o.profit_pct)
            ∧ (∀ y ∈ l₂, y.profit_pct ≤ o.profit_pct)) := by
  intro prices now
  by_cases hlen : prices.length < 2
  · simp [Speedtest.check_arbitrage, hlen]
  · simp only [Speedtest.check_arbitrage, if_neg hlen]
    constructor
    · exact pyMax_eq_none _ _
    · intro o h
      exact pyMax_first_max _ _ _ h

/-- C6 witness: the amended selection theorem applied at a concrete two-exchange
store with one qualifying direction. -/
theorem c6_first_of_maxima_witness :
    ∃ l₁ l₂,
      (Speedtest.check_arbitrage [("A", ⟨99, 100, 0⟩), ("B", ⟨102, 200, 0⟩)] 0).1
        = l₁ ++ (⟨"A", "B", 100, 102, 2, 2⟩ : Speedtest.Opp) :: l₂
      ∧ (∀ y ∈ l₁, y.profit_pct < (2 : ℚ)) ∧ (∀ y ∈ l₂, y.profit_pct ≤ (2 : ℚ)) :=
  (c6_first_of_maxima [("A", ⟨99, 100, 0⟩), ("B", ⟨102, 200, 0⟩)] 0).2
    ⟨"A", "B", 100, 102, 2, 2⟩
    (by norm_num [Speedtest.check_arbitrage, Speedtest.allPairOpps,
      Speedtest.oppsForPair, Speedtest.pyMax])

/-- C9: whenever the first active exchange holding the maximum bid is the same as the
first active exchange holding the minimum ask, `FreeArbitrageMonitor.check_arbitrage`
records nothing — the guard `bid_exchange != ask_exchange` fails and the state is
returned unchanged, regardless of what spreads other active pairs offer. -/
theorem c9_same_exchange_blocks :
    ∀ (s : FreeMonitor.MonState) (now : ℚ),
      2 ≤ (FreeMonitor.activeExchanges s now).length →
      FreeMonitor.bidExchange s now = FreeMonitor.askExchange s now →
      FreeMonitor.check_arbitrage s now = s := by
  intro s now hlen heq
  have hdet : FreeMonitor.freeDetect s now = none := by
    simp only [FreeMonitor.freeDetect]
    rw [if_neg (by omega : ¬ (FreeMonitor.activeExchanges s now).length < 2), heq]
    cases FreeMonitor.askExchange s now with
    | none => rfl
    | some a => simp
  simp [FreeMonitor.check_arbitrage, hdet]

/-- C9 witness: binance holds both the best bid (110) and the best ask (100) while
the cross pair buy-coinbase(102)/sell-binance(110) would clear the threshold by a
wide margin; `check_arbitrage` still records nothing. -/
theorem c9_same_exchange_blocks_witness :
    ((110 : ℚ) - 102) / 102 * 100 > 1/100
    ∧ FreeMonitor.check_arbitrage
        ⟨⟨110, 100, 1, 0⟩, ⟨105, 102, 1, 0⟩, ⟨0, 0, 0, 0⟩, [], 0⟩ 1
      = ⟨⟨110, 100, 1, 0⟩, ⟨105, 102, 1, 0⟩, ⟨0, 0, 0, 0⟩, [], 0⟩ :=
  ⟨by norm_num,
   c9_same_exchange_blocks ⟨⟨110, 100, 1, 0⟩, ⟨105, 102, 1, 0⟩, ⟨0, 0, 0, 0⟩, [], 0⟩ 1
     (by norm_num [FreeMonitor.activeExchanges, FreeMonitor.exchangeOrder,
       FreeMonitor.MonState.q, List.filter])
     (by norm_num [FreeMonitor.bidExchange, FreeMonitor.askExchange,
       FreeMonitor.bestBid, FreeMonitor.bestAsk, FreeMonitor.maxListQ,
       FreeMonitor.minListQ, FreeMonitor.activeExchanges, FreeMonitor.exchangeOrder,
       FreeMonitor.MonState.q, List.filter, List.find?, max_def, min_def])⟩

/-- C10: along any run of the free monitor from its initial state, the stored
opportunity history holds at most 100 entries; the total counter never decreases as
the run is extended, and each detection pass adds exactly 1 to it when an opportunity
is detected and 0 otherwise; appending to a history already holding 100 entries
evicts the oldest entry. -/
theorem c10_history_bounded :
    (∀ evs, (FreeMonitor.run FreeMonitor.initState evs).arbitrage_opportunities.length
      ≤ 100)
    ∧ (∀ evs ev,
        (FreeMonitor.run FreeMonitor.initState evs).total_opportunities
          ≤ (FreeMonitor.run FreeMonitor.initState (evs ++ [ev])).total_opportunities)
    ∧ (∀ (s : FreeMonitor.MonState) (now : ℚ),
        (FreeMonitor.check_arbitrage s now).total_opportunities
          = s.total_opportunities
            + (if FreeMonitor.freeDetect s now = none then 0 else 1))
    ∧ (∀ (xs : List FreeMonitor.FOpp) (x : FreeMonitor.FOpp),
        xs.length = 100 →
        FreeMonitor.dequeAppend xs x = xs.tail ++ [x]) := by
  refine ⟨?_, ?_, check_arb_total, ?_⟩
  · intro evs
    exact run_len evs FreeMonitor.initState (by simp [FreeMonitor.initState])
  · intro evs ev
    rw [run_append]
    obtain ⟨e, q, t⟩ := ev
    simp only [FreeMonitor.run, FreeMonitor.applyUpdate]
    rw [check_arb_total]
    rw [(setQ_opps _ e q).2]
    omega
  · intro xs x h
    rw [FreeMonitor.dequeAppend, if_neg (by omega)]

/-- C10 witness: the eviction clause applied to a history of exactly 100 entries. -/
theorem c10_history_bounded_witness :
    FreeMonitor.dequeAppend
        (List.replicate 100 (⟨.binance, .coinbase, 1, 2, 1, 1⟩ : FreeMonitor.FOpp))
        ⟨.coinbase, .bybit, 3, 4, 1, 1⟩
      = (List.replicate 100 (⟨.binance, .coinbase, 1, 2, 1, 1⟩ : FreeMonitor.FOpp)).tail
          ++ [⟨.coinbase, .bybit, 3, 4, 1, 1⟩] :=
  c10_history_bounded.2.2.2 _ _ (by simp)
